import Mathlib

/-!
# Vault Warden — verification of the audit classifier and unseal reconciler

Shallow embedding of `src/main.go` (package `main` of vault-warden).

* The audit classifier is the body of `processAuditLine` after JSON decoding:
  two independent substring rules producing Discord embeds.
* The unseal reconciler is `runUnlock`: one health check, then key submissions
  in order until the returned status is unsealed or the keys are exhausted.
* `readConfig`'s validation step is embedded as `validateConfig`.

External collaborators (Go stdlib JSON decoding, YAML decoding, the HTTP
transport, the webhook endpoint) are passed in as explicit parameters:
`parse` models `json.Unmarshal` on an audit line, `health`/`submit` model the
two Vault HTTP round trips (an `.error` covers transport failure, unreadable
body and unparseable body, carrying the formatted message `runUnlock`
returns in that case), and `deliver` models the webhook transport consulted
by `sendDiscord`, whose outcome the source always discards.
-/

/-- Notification severity from the design's data model
(`NotificationIntent.severity`). -/
inductive Severity where
  | info
  | warning
  | critical
  deriving DecidableEq, Repr

/-- One parsed audit-log line (`AuditEntry` in main.go): `request.path`,
`auth.display_name`, and `error` (empty means success). -/
structure AuditEntry where
  requestPath : String
  authDisplayName : String
  errorText : String
  deriving DecidableEq, Repr

/-- A notification as built by `sendDiscord` in main.go: embed title,
description and colour (the RFC3339 timestamp is wall-clock and not modelled). -/
structure Intent where
  title : String
  description : String
  color : Nat
  deriving DecidableEq, Repr

/-- `strings.Contains(hay, needle)`: `needle` occurs as a contiguous substring
of `hay` (case-sensitive, raw strings, no normalization). -/
def containsSub (hay needle : String) : Bool :=
  decide (needle.data <:+: hay.data)

/-- The privileged-path test of `processAuditLine` (main.go): path contains
`sign/root` or `database/creds/admin`. -/
def privilegedMatch (e : AuditEntry) : Bool :=
  containsSub e.requestPath "sign/root" || containsSub e.requestPath "database/creds/admin"

/-- The privileged-access alert `processAuditLine` sends: red embed whose
description is `fmt.Sprintf("**User:** %s\n**Resource:** ` + "`%s`" + `", name, path)`. -/
def privilegedIntent (e : AuditEntry) : Intent :=
  { title := "🚨 SECURITY ALERT: Privileged Access"
    description := "**User:** " ++ e.authDisplayName ++ "\n**Resource:** `" ++ e.requestPath ++ "`"
    color := 0xe74c3c }

/-- The unseal notification: green embed with a fixed description. The same
title/description/colour triple is sent both by the audit rule in
`processAuditLine` and by `runUnlock` on a successful unseal. -/
def unsealIntent : Intent :=
  { title := "🔓 Vault Unsealed"
    description := "Vault has been successfully unsealed."
    color := 0x2ecc71 }

/-- The audit-event classifier: the rule portion of `processAuditLine`
(main.go). Both `if` statements are evaluated independently against the
record, so one record can fire both rules. -/
def classify (e : AuditEntry) : List Intent :=
  (if privilegedMatch e then [privilegedIntent e] else []) ++
    (if containsSub e.requestPath "sys/unseal" && (e.errorText == "") then [unsealIntent] else [])

/-- `processAuditLine` (main.go): decode the line with `parse` (the external
`json.Unmarshal`); on failure return silently with no intents, otherwise
classify. Returns the notification intents sent for this line. -/
def processAuditLine (parse : String → Option AuditEntry) (line : String) : List Intent :=
  match parse line with
  | none => []
  | some e => classify e

/-- The audit monitor's per-line loop (`runAudit`'s `select` body) restricted
to a finite observed slice of the log: each line is processed independently
and the emitted intents are concatenated in log order. -/
def processLines (parse : String → Option AuditEntry) (lines : List String) : List Intent :=
  lines.flatMap (processAuditLine parse)

/-- The monitor loop with the webhook transport outcome made observable:
`sendDiscord`'s result `deliver i` is recorded next to each intent but the
source never branches on it (the return value is discarded). -/
def processLinesD (deliver : Intent → Bool) (parse : String → Option AuditEntry)
    (lines : List String) : List (Intent × Bool) :=
  (processLines parse lines).map (fun i => (i, deliver i))

/-- The design's severity of each embed colour the source uses: the red
`0xe74c3c` privileged alert is Critical; the green `0x2ecc71` unseal message,
the blue `0x3498db` startup message and the grey `0x95a5a6` shutdown message
are Info; no colour the source uses maps to Warning. -/
def severityOfColor (c : Nat) : Severity :=
  if c = 0xe74c3c then .critical
  else if c = 0x2ecc71 then .info
  else if c = 0x3498db then .info
  else if c = 0x95a5a6 then .info
  else .warning

/-- `VaultStatus` from main.go, as decoded from the health and unseal
responses: `sealed`, `initialized`, `progress`, `t` (threshold). -/
structure VaultStatus where
  sealed : Bool
  initialized : Bool
  progress : Int
  threshold : Int
  deriving DecidableEq, Repr

/-- Observable outcome of one `runUnlock` invocation: the keys whose
submission round trip was started, in order; the notifications attempted
together with their delivery outcome; and the returned error or success. -/
structure UnlockTrace where
  submitted : List String
  notificationsSent : List (Intent × Bool)
  result : Except String Unit
  deriving Repr

/-- The key-submission loop of `runUnlock` (main.go): `for i, key := range
cfg.UnsealKeys`. `submit n` is the outcome of the n-th submission round trip;
on `.error` the loop returns that error immediately; on a status with
`sealed == false` it sends the unseal notification (discarding `deliver`'s
outcome) and returns success; otherwise it continues with the next key. When
the keys run out it returns the "still sealed after N keys" error, with
`total` the configured key count. -/
def unlockKeys (deliver : Intent → Bool) (submit : Nat → Except String VaultStatus)
    (total : Nat) : Nat → List String → UnlockTrace
  | _, [] =>
    { submitted := []
      notificationsSent := []
      result := .error ("vault still sealed after providing all " ++ toString total ++ " keys") }
  | i, key :: rest =>
    match submit i with
    | .error e =>
      { submitted := [key]
        notificationsSent := []
        result := .error e }
    | .ok st =>
      if !st.sealed then
        { submitted := [key]
          notificationsSent := [(unsealIntent, deliver unsealIntent)]
          result := .ok () }
      else
        let t := unlockKeys deliver submit total (i + 1) rest
        { submitted := key :: t.submitted
          notificationsSent := t.notificationsSent
          result := t.result }

/-- `runUnlock` (main.go): perform the initial health check (`health` is the
outcome of the GET round trip, including body read and JSON decode); if the
status says unsealed, report "already unsealed" and succeed without touching
any key; otherwise run the submission loop over the configured keys. -/
def runUnlock (deliver : Intent → Bool) (health : Except String VaultStatus)
    (submit : Nat → Except String VaultStatus) (keys : List String) : UnlockTrace :=
  match health with
  | .error e => { submitted := [], notificationsSent := [], result := .error e }
  | .ok status =>
    if !status.sealed then
      { submitted := [], notificationsSent := [], result := .ok () }
    else
      unlockKeys deliver submit keys.length 0 keys

/-- `VaultConfig` from main.go: the four YAML-configured fields. -/
structure VaultConfig where
  address : String
  unsealKeys : List String
  webhookURL : String
  auditLog : String
  deriving DecidableEq, Repr

/-- The validation step of `readConfig` (main.go), applied after a successful
YAML decode (file opening and YAML decoding are external and abstracted
away): exactly three fields are checked — `address`, `unseal_keys`,
`webhook_url` — each yielding its own error when empty. -/
def validateConfig (cfg : VaultConfig) : Except String VaultConfig :=
  if cfg.address = "" then .error "address is required"
  else if cfg.unsealKeys = [] then .error "unseal_keys is required"
  else if cfg.webhookURL = "" then .error "webhook_url is required"
  else .ok cfg

/-! ## Helper lemmas -/

theorem containsSub_iff (hay needle : String) :
    containsSub hay needle = true ↔ needle.data <:+: hay.data := by
  simp [containsSub]

/-! ## Claims about the audit classifier -/

/-- C1: every audit record whose path contains `sign/root` or
`database/creds/admin` yields exactly one Critical-severity intent, whose
description contains the acting identity and the exact request path,
regardless of the record's other fields — including a record matching both
substrings. -/
theorem classify_privileged_unique_critical (e : AuditEntry)
    (h : containsSub e.requestPath "sign/root" = true ∨
         containsSub e.requestPath "database/creds/admin" = true) :
    (classify e).filter (fun i => severityOfColor i.color == Severity.critical)
        = [privilegedIntent e] ∧
    containsSub (privilegedIntent e).description e.authDisplayName = true ∧
    containsSub (privilegedIntent e).description e.requestPath = true := by
  have hp : privilegedMatch e = true := by
    rcases h with h | h <;> simp [privilegedMatch, h]
  refine ⟨?_, ?_, ?_⟩
  · by_cases hq : (containsSub e.requestPath "sys/unseal" && (e.errorText == "")) = true
    · simp [classify, hp, hq, severityOfColor, privilegedIntent, unsealIntent]
    · simp [classify, hp, hq, severityOfColor, privilegedIntent]
  · rw [containsSub_iff]
    refine ⟨"**User:** ".data, ("\n**Resource:** `" ++ e.requestPath ++ "`").data, ?_⟩
    simp [privilegedIntent]
  · rw [containsSub_iff]
    refine ⟨("**User:** " ++ e.authDisplayName ++ "\n**Resource:** `").data, "`".data, ?_⟩
    simp [privilegedIntent]

/-- Witness for C1 at a concrete record whose path matches both privileged
substrings: still exactly one Critical intent. -/
theorem classify_privileged_unique_critical_witness :
    (classify ⟨"ssh/sign/root/database/creds/admin", "oidc-alice", ""⟩).filter
        (fun i => severityOfColor i.color == Severity.critical)
      = [privilegedIntent ⟨"ssh/sign/root/database/creds/admin", "oidc-alice", ""⟩] ∧
    containsSub (privilegedIntent
        ⟨"ssh/sign/root/database/creds/admin", "oidc-alice", ""⟩).description
      "oidc-alice" = true ∧
    containsSub (privilegedIntent
        ⟨"ssh/sign/root/database/creds/admin", "oidc-alice", ""⟩).description
      "ssh/sign/root/database/creds/admin" = true :=
  classify_privileged_unique_critical
    ⟨"ssh/sign/root/database/creds/admin", "oidc-alice", ""⟩ (Or.inl (by decide))

/-- C2: every record whose path contains `sys/unseal` and whose error text is
empty yields the Info unseal intent with the fixed description; with a
non-empty error text, no such intent is produced. Both rules are evaluated
against every record: a record also matching the privileged rule yields both
intents. -/
theorem classify_unseal_rule (e : AuditEntry)
    (h : containsSub e.requestPath "sys/unseal" = true) :
    (e.errorText = "" →
      (classify e).filter
          (fun i => severityOfColor i.color == Severity.info &&
            (i.description == "Vault has been successfully unsealed.")) = [unsealIntent]) ∧
    (e.errorText ≠ "" →
      (classify e).filter
          (fun i => severityOfColor i.color == Severity.info &&
            (i.description == "Vault has been successfully unsealed.")) = []) ∧
    (privilegedMatch e = true → e.errorText = "" →
      classify e = [privilegedIntent e, unsealIntent]) := by
  refine ⟨?_, ?_, ?_⟩
  · intro he
    by_cases hp : privilegedMatch e = true
    · simp [classify, hp, h, he, severityOfColor, privilegedIntent, unsealIntent]
    · simp [classify, hp, h, he, severityOfColor, unsealIntent]
  · intro he
    have he' : (e.errorText == "") = false := by
      simpa using he
    by_cases hp : privilegedMatch e = true
    · simp [classify, hp, he', severityOfColor, privilegedIntent]
    · simp [classify, hp, he']
  · intro hp he
    simp [classify, hp, h, he]

/-- Witness for C2 at a concrete record whose path matches both the
privileged rule and the unseal rule with an empty error text. -/
theorem classify_unseal_rule_witness :
    ((""  : String) = "" →
      (classify ⟨"sign/root/sys/unseal", "oidc-bob", ""⟩).filter
          (fun i => severityOfColor i.color == Severity.info &&
            (i.description == "Vault has been successfully unsealed.")) = [unsealIntent]) ∧
    ((""  : String) ≠ "" →
      (classify ⟨"sign/root/sys/unseal", "oidc-bob", ""⟩).filter
          (fun i => severityOfColor i.color == Severity.info &&
            (i.description == "Vault has been successfully unsealed.")) = []) ∧
    (privilegedMatch ⟨"sign/root/sys/unseal", "oidc-bob", ""⟩ = true → ("" : String) = "" →
      classify ⟨"sign/root/sys/unseal", "oidc-bob", ""⟩
        = [privilegedIntent ⟨"sign/root/sys/unseal", "oidc-bob", ""⟩, unsealIntent]) :=
  classify_unseal_rule ⟨"sign/root/sys/unseal", "oidc-bob", ""⟩ (by decide)

/-! ## Helper lemmas for the key-submission loop -/

theorem unlockKeys_stops (deliver : Intent → Bool) (submit : Nat → Except String VaultStatus)
    (total : Nat) :
    ∀ (keys : List String) (i j : Nat), j < keys.length →
      (∀ k, k < j → ∃ st, submit (i + k) = .ok st ∧ st.sealed = true) →
      (∃ st, submit (i + j) = .ok st ∧ st.sealed = false) →
      unlockKeys deliver submit total i keys =
        { submitted := keys.take (j + 1)
          notificationsSent := [(unsealIntent, deliver unsealIntent)]
          result := .ok () } := by
  intro keys
  induction keys with
  | nil =>
    intro i j hj hb hat
    simp at hj
  | cons key rest ih =>
    intro i j hj hb hat
    cases j with
    | zero =>
      obtain ⟨st, hsub, hst⟩ := hat
      rw [Nat.add_zero] at hsub
      simp [unlockKeys, hsub, hst]
    | succ j' =>
      obtain ⟨st0, hsub0, hst0⟩ := hb 0 (Nat.succ_pos _)
      rw [Nat.add_zero] at hsub0
      have hb' : ∀ k, k < j' → ∃ st, submit (i + 1 + k) = .ok st ∧ st.sealed = true := by
        intro k hk
        have := hb (k + 1) (Nat.succ_lt_succ hk)
        rw [show i + (k + 1) = i + 1 + k by omega] at this
        exact this
      have hat' : ∃ st, submit (i + 1 + j') = .ok st ∧ st.sealed = false := by
        rw [show i + 1 + j' = i + (j' + 1) by omega]
        exact hat
      have hrec := ih (i + 1) j' (by simpa using Nat.lt_of_succ_lt_succ hj) hb' hat'
      simp [unlockKeys, hsub0, hst0, hrec]

theorem unlockKeys_exhausted (deliver : Intent → Bool)
    (submit : Nat → Except String VaultStatus) (total : Nat) :
    ∀ (keys : List String) (i : Nat),
      (∀ k, k < keys.length → ∃ st, submit (i + k) = .ok st ∧ st.sealed = true) →
      unlockKeys deliver submit total i keys =
        { submitted := keys
          notificationsSent := []
          result := .error
            ("vault still sealed after providing all " ++ toString total ++ " keys") } := by
  intro keys
  induction keys with
  | nil =>
    intro i hall
    simp [unlockKeys]
  | cons key rest ih =>
    intro i hall
    obtain ⟨st0, hsub0, hst0⟩ := hall 0 (by simp)
    rw [Nat.add_zero] at hsub0
    have hall' : ∀ k, k < rest.length → ∃ st, submit (i + 1 + k) = .ok st ∧ st.sealed = true := by
      intro k hk
      have := hall (k + 1) (by simpa using Nat.succ_lt_succ hk)
      rw [show i + (k + 1) = i + 1 + k by omega] at this
      exact this
    have hrec := ih (i + 1) hall'
    simp [unlockKeys, hsub0, hst0, hrec]

theorem unlockKeys_fail (deliver : Intent → Bool)
    (submit : Nat → Except String VaultStatus) (total : Nat) (e : String) :
    ∀ (keys : List String) (i j : Nat), j < keys.length →
      (∀ k, k < j → ∃ st, submit (i + k) = .ok st ∧ st.sealed = true) →
      submit (i + j) = .error e →
      unlockKeys deliver submit total i keys =
        { submitted := keys.take (j + 1)
          notificationsSent := []
          result := .error e } := by
  intro keys
  induction keys with
  | nil =>
    intro i j hj hb he
    simp at hj
  | cons key rest ih =>
    intro i j hj hb he
    cases j with
    | zero =>
      rw [Nat.add_zero] at he
      simp [unlockKeys, he]
    | succ j' =>
      obtain ⟨st0, hsub0, hst0⟩ := hb 0 (Nat.succ_pos _)
      rw [Nat.add_zero] at hsub0
      have hb' : ∀ k, k < j' → ∃ st, submit (i + 1 + k) = .ok st ∧ st.sealed = true := by
        intro k hk
        have := hb (k + 1) (Nat.succ_lt_succ hk)
        rw [show i + (k + 1) = i + 1 + k by omega] at this
        exact this
      have he' : submit (i + 1 + j') = .error e := by
        rw [show i + 1 + j' = i + (j' + 1) by omega]
        exact he
      have hrec := ih (i + 1) j' (by simpa using Nat.lt_of_succ_lt_succ hj) hb' he'
      simp [unlockKeys, hsub0, hst0, hrec]

theorem unlockKeys_notifications (deliver : Intent → Bool)
    (submit : Nat → Except String VaultStatus) (total : Nat) :
    ∀ (keys : List String) (i : Nat),
      (unlockKeys deliver submit total i keys).notificationsSent = [] ∨
      (unlockKeys deliver submit total i keys).notificationsSent
        = [(unsealIntent, deliver unsealIntent)] := by
  intro keys
  induction keys with
  | nil =>
    intro i
    left
    simp [unlockKeys]
  | cons key rest ih =>
    intro i
    rcases hsub : submit i with e | st
    · left
      simp [unlockKeys, hsub]
    · by_cases hst : st.sealed = true
      · rcases ih (i + 1) with hrec | hrec <;>
          [left; right] <;> simp [unlockKeys, hsub, hst, hrec]
      · right
        have hst' : st.sealed = false := by
          simpa using hst
        simp [unlockKeys, hsub, hst']

theorem unlockKeys_deliver_independent (d1 d2 : Intent → Bool)
    (submit : Nat → Except String VaultStatus) (total : Nat) :
    ∀ (keys : List String) (i : Nat),
      (unlockKeys d1 submit total i keys).submitted
          = (unlockKeys d2 submit total i keys).submitted ∧
      (unlockKeys d1 submit total i keys).result
          = (unlockKeys d2 submit total i keys).result ∧
      (unlockKeys d1 submit total i keys).notificationsSent.map Prod.fst
          = (unlockKeys d2 submit total i keys).notificationsSent.map Prod.fst := by
  intro keys
  induction keys with
  | nil =>
    intro i
    simp [unlockKeys]
  | cons key rest ih =>
    intro i
    rcases hsub : submit i with e | st
    · simp [unlockKeys, hsub]
    · by_cases hst : st.sealed = true
      · obtain ⟨h1, h2, h3⟩ := ih (i + 1)
        simp [unlockKeys, hsub, hst, h1, h2, h3]
      · have hst' : st.sealed = false := by
          simpa using hst
        simp [unlockKeys, hsub, hst']

/-! ## Claims about the unseal reconciler -/

/-- C3: with the initial health check reporting sealed, keys are submitted in
the given order and the loop stops right after the first submission whose
returned status is unsealed: the first `j + 1` keys are submitted, the
success notification fires exactly once, and the run succeeds. -/
theorem runUnlock_stops_at_first_unsealed (deliver : Intent → Bool)
    (health : Except String VaultStatus) (submit : Nat → Except String VaultStatus)
    (keys : List String) (hs : VaultStatus) (j : Nat)
    (hh : health = .ok hs) (hseal : hs.sealed = true) (hj : j < keys.length)
    (hb : ∀ k, k < j → ∃ st, submit k = .ok st ∧ st.sealed = true)
    (hat : ∃ st, submit j = .ok st ∧ st.sealed = false) :
    (runUnlock deliver health submit keys).submitted = keys.take (j + 1) ∧
    (runUnlock deliver health submit keys).notificationsSent.map Prod.fst = [unsealIntent] ∧
    (runUnlock deliver health submit keys).result = .ok () := by
  subst hh
  have hstep := unlockKeys_stops deliver submit keys.length keys 0 j hj
    (by simpa using hb) (by simpa using hat)
  simp [runUnlock, hseal, hstep]

/-- Witness for C3: three keys, the second submission unseals — exactly two
keys are submitted and the success notification fires once. -/
theorem runUnlock_stops_at_first_unsealed_witness :
    (runUnlock (fun _ => true) (.ok ⟨true, true, 0, 3⟩)
        (fun i => if i = 1 then .ok ⟨false, true, 0, 3⟩ else .ok ⟨true, true, 1, 3⟩)
        ["ks1", "ks2", "ks3"]).submitted = ["ks1", "ks2"] ∧
    (runUnlock (fun _ => true) (.ok ⟨true, true, 0, 3⟩)
        (fun i => if i = 1 then .ok ⟨false, true, 0, 3⟩ else .ok ⟨true, true, 1, 3⟩)
        ["ks1", "ks2", "ks3"]).notificationsSent.map Prod.fst = [unsealIntent] ∧
    (runUnlock (fun _ => true) (.ok ⟨true, true, 0, 3⟩)
        (fun i => if i = 1 then .ok ⟨false, true, 0, 3⟩ else .ok ⟨true, true, 1, 3⟩)
        ["ks1", "ks2", "ks3"]).result = .ok () := by
  have h := runUnlock_stops_at_first_unsealed (fun _ => true) (.ok ⟨true, true, 0, 3⟩)
    (fun i => if i = 1 then .ok ⟨false, true, 0, 3⟩ else .ok ⟨true, true, 1, 3⟩)
    ["ks1", "ks2", "ks3"] ⟨true, true, 0, 3⟩ 1 rfl rfl (by decide)
    (by
      intro k hk
      have hk0 : k = 0 := by omega
      subst hk0
      exact ⟨⟨true, true, 1, 3⟩, rfl, rfl⟩)
    ⟨⟨false, true, 0, 3⟩, rfl, rfl⟩
  simpa using h

/-- C4: with the initial health check reporting sealed and every submission
still sealed, all keys are submitted, the run fails with the
"still sealed after N keys" error (N the configured key count), and no
success notification fires. -/
theorem runUnlock_exhausts_all_keys (deliver : Intent → Bool)
    (health : Except String VaultStatus) (submit : Nat → Except String VaultStatus)
    (keys : List String) (hs : VaultStatus)
    (hh : health = .ok hs) (hseal : hs.sealed = true)
    (hall : ∀ k, k < keys.length → ∃ st, submit k = .ok st ∧ st.sealed = true) :
    (runUnlock deliver health submit keys).submitted = keys ∧
    (runUnlock deliver health submit keys).notificationsSent = [] ∧
    (runUnlock deliver health submit keys).result =
      .error ("vault still sealed after providing all " ++ toString keys.length ++ " keys") := by
  subst hh
  have hstep := unlockKeys_exhausted deliver submit keys.length keys 0 (by simpa using hall)
  simp [runUnlock, hseal, hstep]

/-- Witness for C4: three keys, every submission still sealed — all three
submitted, failure mentions all 3 keys, no notification. -/
theorem runUnlock_exhausts_all_keys_witness :
    (runUnlock (fun _ => true) (.ok ⟨true, true, 0, 3⟩)
        (fun _ => .ok ⟨true, true, 1, 3⟩) ["ks1", "ks2", "ks3"]).submitted
      = ["ks1", "ks2", "ks3"] ∧
    (runUnlock (fun _ => true) (.ok ⟨true, true, 0, 3⟩)
        (fun _ => .ok ⟨true, true, 1, 3⟩) ["ks1", "ks2", "ks3"]).notificationsSent = [] ∧
    (runUnlock (fun _ => true) (.ok ⟨true, true, 0, 3⟩)
        (fun _ => .ok ⟨true, true, 1, 3⟩) ["ks1", "ks2", "ks3"]).result
      = .error "vault still sealed after providing all 3 keys" := by
  have h := runUnlock_exhausts_all_keys (fun _ => true) (.ok ⟨true, true, 0, 3⟩)
    (fun _ => .ok ⟨true, true, 1, 3⟩) ["ks1", "ks2", "ks3"] ⟨true, true, 0, 3⟩ rfl rfl
    (fun k _ => ⟨⟨true, true, 1, 3⟩, rfl, rfl⟩)
  simpa using h

/-- C5: with the initial health check reporting unsealed, the reconciler is a
no-op: zero keys submitted, no notification, success. -/
theorem runUnlock_noop_when_unsealed (deliver : Intent → Bool)
    (health : Except String VaultStatus) (submit : Nat → Except String VaultStatus)
    (keys : List String) (hs : VaultStatus)
    (hh : health = .ok hs) (hseal : hs.sealed = false) :
    runUnlock deliver health submit keys =
      { submitted := [], notificationsSent := [], result := .ok () } := by
  subst hh
  simp [runUnlock, hseal]

/-- Witness for C5 at a concrete unsealed health status and three keys. -/
theorem runUnlock_noop_when_unsealed_witness :
    runUnlock (fun _ => true) (.ok ⟨false, true, 0, 3⟩)
        (fun _ => .ok ⟨true, true, 1, 3⟩) ["ks1", "ks2", "ks3"]
      = { submitted := [], notificationsSent := [], result := .ok () } :=
  runUnlock_noop_when_unsealed (fun _ => true) (.ok ⟨false, true, 0, 3⟩)
    (fun _ => .ok ⟨true, true, 1, 3⟩) ["ks1", "ks2", "ks3"] ⟨false, true, 0, 3⟩ rfl rfl

/-- C10: if the j-th submission's round trip fails, the reconciler returns
that error immediately: exactly the first `j + 1` keys were submitted (the
earlier submissions remain — nothing is reverted, and the trace records them
in order), the remaining keys are never submitted, and no success
notification fires. -/
theorem runUnlock_aborts_on_submit_error (deliver : Intent → Bool)
    (health : Except String VaultStatus) (submit : Nat → Except String VaultStatus)
    (keys : List String) (hs : VaultStatus) (j : Nat) (e : String)
    (hh : health = .ok hs) (hseal : hs.sealed = true) (hj : j < keys.length)
    (hb : ∀ k, k < j → ∃ st, submit k = .ok st ∧ st.sealed = true)
    (he : submit j = .error e) :
    (runUnlock deliver health submit keys).submitted = keys.take (j + 1) ∧
    (runUnlock deliver health submit keys).notificationsSent = [] ∧
    (runUnlock deliver health submit keys).result = .error e := by
  subst hh
  have hstep := unlockKeys_fail deliver submit keys.length e keys 0 j hj
    (by simpa using hb) (by simpa using he)
  simp [runUnlock, hseal, hstep]

/-- Witness for C10: the second of three submissions fails with a transport
error — only the first two keys are submitted and the error is returned. -/
theorem runUnlock_aborts_on_submit_error_witness :
    (runUnlock (fun _ => true) (.ok ⟨true, true, 0, 3⟩)
        (fun i => if i = 1 then .error "unseal request 2 failed: connection refused"
          else .ok ⟨true, true, 1, 3⟩)
        ["ks1", "ks2", "ks3"]).submitted = ["ks1", "ks2"] ∧
    (runUnlock (fun _ => true) (.ok ⟨true, true, 0, 3⟩)
        (fun i => if i = 1 then .error "unseal request 2 failed: connection refused"
          else .ok ⟨true, true, 1, 3⟩)
        ["ks1", "ks2", "ks3"]).notificationsSent = [] ∧
    (runUnlock (fun _ => true) (.ok ⟨true, true, 0, 3⟩)
        (fun i => if i = 1 then .error "unseal request 2 failed: connection refused"
          else .ok ⟨true, true, 1, 3⟩)
        ["ks1", "ks2", "ks3"]).result
      = .error "unseal request 2 failed: connection refused" := by
  have h := runUnlock_aborts_on_submit_error (fun _ => true) (.ok ⟨true, true, 0, 3⟩)
    (fun i => if i = 1 then .error "unseal request 2 failed: connection refused"
      else .ok ⟨true, true, 1, 3⟩)
    ["ks1", "ks2", "ks3"] ⟨true, true, 0, 3⟩ 1 "unseal request 2 failed: connection refused"
    rfl rfl (by decide)
    (by
      intro k hk
      have hk0 : k = 0 := by omega
      subst hk0
      exact ⟨⟨true, true, 1, 3⟩, rfl, rfl⟩)
    rfl
  simpa using h

/-- Counterexample for C7: in a concrete successful unseal run the
notification sent is the fixed unseal intent, and its colour `0x2ecc71` (the
classifier's Info green, not the Critical red `0xe74c3c`) does not have
Critical severity. -/
theorem runUnlock_success_notification_not_critical :
    (runUnlock (fun _ => true) (.ok ⟨true, true, 0, 1⟩)
        (fun _ => .ok ⟨false, true, 0, 1⟩) ["ks1"]).notificationsSent.map Prod.fst
      = [unsealIntent] ∧
    severityOfColor unsealIntent.color ≠ Severity.critical := by
  constructor
  · simp [runUnlock, unlockKeys]
  · decide

/-- C7 (amended): every notification the unseal reconciler ever sends is the
fixed "Vault Unsealed" intent, and its severity is Info (colour `0x2ecc71`,
the same green as the classifier's Info unseal intent), not Critical. -/
theorem runUnlock_success_notification_info (deliver : Intent → Bool)
    (health : Except String VaultStatus) (submit : Nat → Except String VaultStatus)
    (keys : List String) :
    ∀ p ∈ (runUnlock deliver health submit keys).notificationsSent,
      p.1 = unsealIntent ∧ severityOfColor p.1.color = Severity.info := by
  intro p hp
  have hnotif : (runUnlock deliver health submit keys).notificationsSent = [] ∨
      (runUnlock deliver health submit keys).notificationsSent
        = [(unsealIntent, deliver unsealIntent)] := by
    rcases health with e | hs
    · left
      simp [runUnlock]
    · by_cases hseal : hs.sealed = true
      · simpa [runUnlock, hseal] using
          unlockKeys_notifications deliver submit keys.length keys 0
      · have hseal' : hs.sealed = false := by
          simpa using hseal
        left
        simp [runUnlock, hseal']
  rcases hnotif with hn | hn
  · rw [hn] at hp
    simp at hp
  · rw [hn] at hp
    simp at hp
    subst hp
    exact ⟨rfl, by simp [unsealIntent, severityOfColor]⟩

/-- Witness for the amended C7 at a concrete successful run whose single
notification is the unseal intent with a failed delivery. -/
theorem runUnlock_success_notification_info_witness :
    ((unsealIntent, false) : Intent × Bool).1 = unsealIntent ∧
    severityOfColor ((unsealIntent, false) : Intent × Bool).1.color = Severity.info :=
  runUnlock_success_notification_info (fun _ => false) (.ok ⟨true, true, 0, 1⟩)
    (fun _ => .ok ⟨false, true, 0, 1⟩) ["ks1"] (unsealIntent, false)
    (by simp [runUnlock, unlockKeys])

/-- C8: the outcome of the calling operation is independent of the webhook
transport's outcome: for any two delivery behaviours, the reconciler's
submitted keys, returned result and attempted notifications coincide, and so
do the intents emitted while processing any slice of the audit log. -/
theorem notification_outcome_independent (d1 d2 : Intent → Bool)
    (health : Except String VaultStatus) (submit : Nat → Except String VaultStatus)
    (keys : List String) (parse : String → Option AuditEntry) (lines : List String) :
    (runUnlock d1 health submit keys).submitted
        = (runUnlock d2 health submit keys).submitted ∧
    (runUnlock d1 health submit keys).result
        = (runUnlock d2 health submit keys).result ∧
    (runUnlock d1 health submit keys).notificationsSent.map Prod.fst
        = (runUnlock d2 health submit keys).notificationsSent.map Prod.fst ∧
    (processLinesD d1 parse lines).map Prod.fst
        = (processLinesD d2 parse lines).map Prod.fst := by
  refine ⟨?_, ?_, ?_, ?_⟩
  · rcases health with e | hs
    · simp [runUnlock]
    · by_cases hseal : hs.sealed = true
      · simpa [runUnlock, hseal] using
          (unlockKeys_deliver_independent d1 d2 submit keys.length keys 0).1
      · have hseal' : hs.sealed = false := by
          simpa using hseal
        simp [runUnlock, hseal']
  · rcases health with e | hs
    · simp [runUnlock]
    · by_cases hseal : hs.sealed = true
      · simpa [runUnlock, hseal] using
          (unlockKeys_deliver_independent d1 d2 submit keys.length keys 0).2.1
      · have hseal' : hs.sealed = false := by
          simpa using hseal
        simp [runUnlock, hseal']
  · rcases health with e | hs
    · simp [runUnlock]
    · by_cases hseal : hs.sealed = true
      · simpa [runUnlock, hseal] using
          (unlockKeys_deliver_independent d1 d2 submit keys.length keys 0).2.2
      · have hseal' : hs.sealed = false := by
          simpa using hseal
        simp [runUnlock, hseal']
  · simp [processLinesD, List.map_map]

/-- C9: a line the JSON decoder rejects yields no record and no intents, and
removing it from the observed log slice leaves the intents emitted for the
remaining lines unchanged. -/
theorem malformed_line_is_dropped (parse : String → Option AuditEntry) (bad : String)
    (hbad : parse bad = none) (pre post : List String) :
    processAuditLine parse bad = [] ∧
    processLines parse (pre ++ bad :: post) = processLines parse (pre ++ post) := by
  constructor
  · simp [processAuditLine, hbad]
  · simp [processLines, processAuditLine, hbad]

/-- Witness for C9: a malformed line before a valid privileged-access line
does not change what the valid line produces. -/
theorem malformed_line_is_dropped_witness :
    processAuditLine
        (fun s => if s = "valid" then some ⟨"pki/sign/root", "oidc-carol", ""⟩ else none)
        "\x7bnot json" = [] ∧
    processLines
        (fun s => if s = "valid" then some ⟨"pki/sign/root", "oidc-carol", ""⟩ else none)
        (["\x7bnot json", "valid"])
      = processLines
        (fun s => if s = "valid" then some ⟨"pki/sign/root", "oidc-carol", ""⟩ else none)
        ["valid"] := by
  have h := malformed_line_is_dropped
    (fun s => if s = "valid" then some ⟨"pki/sign/root", "oidc-carol", ""⟩ else none)
    "\x7bnot json" (by decide) [] ["valid"]
  simpa using h

/-- Counterexample for C6: a configuration whose `audit_log` field is empty
passes `readConfig`'s validation — configuration loading does not fail. -/
theorem validateConfig_accepts_empty_audit_log :
    validateConfig ⟨"http://127.0.0.1:8200", ["key-share-1"], "https://discord.example/hook", ""⟩
      = .ok ⟨"http://127.0.0.1:8200", ["key-share-1"], "https://discord.example/hook", ""⟩ :=
  rfl

/-- C6 (amended): configuration loading fails exactly when one of the three
checked fields — `address`, `unseal_keys`, `webhook_url` — is missing or
empty; the `audit_log` field is not validated at load time (the audit mode
checks the path's accessibility itself later, after its startup
notification, and the unlock mode never uses it). -/
theorem validateConfig_checks_three_fields (cfg : VaultConfig) :
    (∃ e, validateConfig cfg = .error e) ↔
      (cfg.address = "" ∨ cfg.unsealKeys = [] ∨ cfg.webhookURL = "") := by
  unfold validateConfig
  split_ifs with h1 h2 h3 <;> simp_all
